import Mathlib

set_option maxHeartbeats 1000000

/-!
Verification of `asyncua_utils/nodes.py` (opcua-bridging).

The Python module is shallowly embedded below:
* `browse_nodes`  — the recursive tree exporter,
* `check_if_object_is_from_module` — the serializability filter,
* `clone_nodes` / `add_variable` — the tree cloner and value materializer,
* `fix_name` — the name normalizer.

Python dictionaries become a `Snapshot` record in which an absent key is
`Option.none` (distinct from a key present with Python `None`, which is
`some Value.none`).  The remote address space is a `PNode` tree whose
fallible provider reads (`read_data_type_as_variant_type`, `get_value`)
are recorded as `Except` fields.  Python `exit(1)` inside `add_variable`
becomes the error value `CloneErr.exitCode 1`; a raised
`NotImplementedError` becomes `CloneErr.notImplemented`.  In-place
mutation of the snapshot dictionary by `clone_nodes` is modelled by
returning the post-call snapshot value.
-/

/-- OPC UA `NodeClass` enumeration (asyncua `uaprotocol_auto.NodeClass`). -/
inductive NodeClassE where
  | Unspecified | Object | Variable | Method | ObjectType
  | VariableType | ReferenceType | DataType | View
deriving DecidableEq

/-- `NodeClass.value` — the numeric code of each class. -/
def ncVal : NodeClassE → Nat
  | .Unspecified => 0 | .Object => 1 | .Variable => 2 | .Method => 4
  | .ObjectType => 8 | .VariableType => 16 | .ReferenceType => 32
  | .DataType => 64 | .View => 128

/-- `NodeClass(...).name` — the symbolic name of each class. -/
def ncName : NodeClassE → String
  | .Unspecified => "Unspecified" | .Object => "Object" | .Variable => "Variable"
  | .Method => "Method" | .ObjectType => "ObjectType" | .VariableType => "VariableType"
  | .ReferenceType => "ReferenceType" | .DataType => "DataType" | .View => "View"

/-- OPC UA `VariantType` enumeration (asyncua `uatypes.VariantType`). -/
inductive VariantType where
  | Null | Boolean | SByte | Byte | Int16 | UInt16 | Int32 | UInt32
  | Int64 | UInt64 | Float | Double | String | DateTime | Guid
  | ByteString | XmlElement | NodeId | ExpandedNodeId | StatusCode
  | QualifiedName | LocalizedText | ExtensionObject | DataValue
  | Variant | DiagnosticInfo
deriving DecidableEq

/-- `VariantType(...).value` — numeric code (OPC UA built-in type id). -/
def vtVal : VariantType → Nat
  | .Null => 0 | .Boolean => 1 | .SByte => 2 | .Byte => 3 | .Int16 => 4
  | .UInt16 => 5 | .Int32 => 6 | .UInt32 => 7 | .Int64 => 8 | .UInt64 => 9
  | .Float => 10 | .Double => 11 | .String => 12 | .DateTime => 13
  | .Guid => 14 | .ByteString => 15 | .XmlElement => 16 | .NodeId => 17
  | .ExpandedNodeId => 18 | .StatusCode => 19 | .QualifiedName => 20
  | .LocalizedText => 21 | .ExtensionObject => 22 | .DataValue => 23
  | .Variant => 24 | .DiagnosticInfo => 25

/-- `VariantType(...).name`. -/
def vtName : VariantType → String
  | .Null => "Null" | .Boolean => "Boolean" | .SByte => "SByte"
  | .Byte => "Byte" | .Int16 => "Int16" | .UInt16 => "UInt16"
  | .Int32 => "Int32" | .UInt32 => "UInt32" | .Int64 => "Int64"
  | .UInt64 => "UInt64" | .Float => "Float" | .Double => "Double"
  | .String => "String" | .DateTime => "DateTime" | .Guid => "Guid"
  | .ByteString => "ByteString" | .XmlElement => "XmlElement"
  | .NodeId => "NodeId" | .ExpandedNodeId => "ExpandedNodeId"
  | .StatusCode => "StatusCode" | .QualifiedName => "QualifiedName"
  | .LocalizedText => "LocalizedText" | .ExtensionObject => "ExtensionObject"
  | .DataValue => "DataValue" | .Variant => "Variant"
  | .DiagnosticInfo => "DiagnosticInfo"

/-- `VariantType[name]` — lookup by symbolic name (`KeyError` ↦ `none`). -/
def vtFromName (s : String) : Option VariantType :=
  if s = "Null" then some .Null else if s = "Boolean" then some .Boolean
  else if s = "SByte" then some .SByte else if s = "Byte" then some .Byte
  else if s = "Int16" then some .Int16 else if s = "UInt16" then some .UInt16
  else if s = "Int32" then some .Int32 else if s = "UInt32" then some .UInt32
  else if s = "Int64" then some .Int64 else if s = "UInt64" then some .UInt64
  else if s = "Float" then some .Float else if s = "Double" then some .Double
  else if s = "String" then some .String else if s = "DateTime" then some .DateTime
  else if s = "Guid" then some .Guid else if s = "ByteString" then some .ByteString
  else if s = "XmlElement" then some .XmlElement else if s = "NodeId" then some .NodeId
  else if s = "ExpandedNodeId" then some .ExpandedNodeId
  else if s = "StatusCode" then some .StatusCode
  else if s = "QualifiedName" then some .QualifiedName
  else if s = "LocalizedText" then some .LocalizedText
  else if s = "ExtensionObject" then some .ExtensionObject
  else if s = "DataValue" then some .DataValue
  else if s = "Variant" then some .Variant
  else if s = "DiagnosticInfo" then some .DiagnosticInfo
  else none

/- A Python runtime value as it occurs in snapshots: `none` is Python
`None`; `obj m` is an opaque instance whose `__module__` is `m`;
`float z` is a float of integral value (the code only ever manufactures
`0.0`); `list` is a Python list. -/
mutual
inductive Value where
  | none
  | int (n : Int)
  | str (s : String)
  | bool (b : Bool)
  | float (z : Int)
  | dateTime (t : Nat)
  | obj (module : String)
  | list (vs : VList)
deriving DecidableEq
inductive VList where
  | nil
  | cons (v : Value) (vs : VList)
deriving DecidableEq
end

/-- Python truthiness of a `Value` (`bool(v)`). -/
def truthy : Value → Bool
  | .none => false
  | .int n => n ≠ 0
  | .str s => s ≠ ""
  | .bool b => b
  | .float z => z ≠ 0
  | .dateTime _ => true
  | .obj _ => true
  | .list .nil => false
  | .list (.cons _ _) => true

/-- `getattr(obj_val, chr(95) ++ chr(95) ++ "module" ++ ..., fallback)`:
the `__module__` attribute of a value, with `""` as the fallback for
values that do not carry one (plain ints, strings, bools, `None`). -/
def pyModuleOf : Value → String
  | .none => "" | .int _ => "" | .str _ => "" | .bool _ => ""
  | .float _ => "" | .dateTime _ => "datetime" | .obj m => m
  | .list _ => ""

/- `check_if_object_is_from_module` from nodes.py: recursively looks for
any constituent value whose `__module__` starts with the module's name
(dicts are subsumed by lists of their values here). -/
mutual
def check_if_object_is_from_module : Value → String → Bool
  | .list vs, m => anyFromModule vs m
  | v, m => (pyModuleOf v).startsWith m
def anyFromModule : VList → String → Bool
  | .nil, _ => false
  | .cons v vs, m => check_if_object_is_from_module v m || anyFromModule vs m
end

/-- The value stored under the snapshot key `cls`: the numeric
`NodeClass.value` in internal mode, the symbolic name string after
export. -/
inductive ClsVal where
  | num (n : Nat)
  | str (s : String)
deriving DecidableEq

/-- The value stored under the snapshot key `type`: Python `None`, a
live `VariantType` member (internal mode), or its symbolic name string
(export mode / deserialized snapshots). -/
inductive TypeVal where
  | none
  | vt (t : VariantType)
  | str (s : String)
deriving DecidableEq

/- A node snapshot — the dictionary produced by `browse_nodes`.
`Option.none` in `ty` / `cv` / `children` means the key is absent from
the dictionary; `hasNode` records whether the live back-reference key
`node` is attached (internal mode only).  `SChildren.absent` means no
`children` key. -/
mutual
inductive Snapshot where
  | mk (id nm : String) (cls : ClsVal) (ty : Option TypeVal)
       (path : List String) (cv : Option Value) (hasNode : Bool)
       (children : SChildren)
inductive SChildren where
  | absent
  | present (l : SForest)
inductive SForest where
  | nil
  | cons (s : Snapshot) (rest : SForest)
end

def Snapshot.id : Snapshot → String
  | .mk i _ _ _ _ _ _ _ => i

def Snapshot.nm : Snapshot → String
  | .mk _ n _ _ _ _ _ _ => n

def Snapshot.cls : Snapshot → ClsVal
  | .mk _ _ c _ _ _ _ _ => c

def Snapshot.ty : Snapshot → Option TypeVal
  | .mk _ _ _ t _ _ _ _ => t

def Snapshot.path : Snapshot → List String
  | .mk _ _ _ _ p _ _ _ => p

def Snapshot.cv : Snapshot → Option Value
  | .mk _ _ _ _ _ v _ _ => v

def Snapshot.hasNode : Snapshot → Bool
  | .mk _ _ _ _ _ _ h _ => h

def Snapshot.children : Snapshot → SChildren
  | .mk _ _ _ _ _ _ _ c => c

/-- The failure a provider `get_value` call can raise.  The first four
are exactly the classes caught at the `current_value` read in
`browse_nodes`; `other` stands for any other exception (uncaught
there). -/
inductive ReadErr where
  | badOutOfService | badAttributeIdInvalid | badInternalError
  | badSecurityModeInsufficient | other
deriving DecidableEq

/-- Whether the exception class is in the caught tuple
`(BadOutOfService, BadAttributeIdInvalid, BadInternalError,
BadSecurityModeInsufficient)`. -/
def isCaught : ReadErr → Bool
  | .other => false
  | _ => true

/- A node of the remote address space, together with the outcome the
provider gives for each fallible read on it: `typeRead` is
`read_data_type_as_variant_type` (`.error ()` = a raised `ua.UaError`),
`valueRead` is `get_value`.  `read_node_class`, `read_browse_name` and
`get_children` are assumed always readable (a fatal precondition per the
spec) and are plain fields. -/
mutual
inductive PNode where
  | mk (nodeId : String) (cls : NodeClassE) (nm : String)
       (typeRead : Except Unit VariantType)
       (valueRead : Except ReadErr Value)
       (children : PForest)
inductive PForest where
  | nil
  | cons (n : PNode) (f : PForest)
end

def PNode.nodeId : PNode → String
  | .mk i _ _ _ _ _ => i

def PNode.cls : PNode → NodeClassE
  | .mk _ c _ _ _ _ => c

def PNode.nm : PNode → String
  | .mk _ _ n _ _ _ => n

def PNode.typeRead : PNode → Except Unit VariantType
  | .mk _ _ _ t _ _ => t

def PNode.valueRead : PNode → Except ReadErr Value
  | .mk _ _ _ _ v _ => v

def PNode.children : PNode → PForest
  | .mk _ _ _ _ _ c => c

/- `browse_nodes` from nodes.py, together with its loop over
`get_children` (`browseChildren`).  The returned `Except` carries the
only exception that can escape: an uncaught `get_value` failure on a
Variable-classed node.  `deepcopy(path)` is value copying, which is
implicit here; each child receives the parent path extended with the
parent's browse name, and the snapshot records its own copy. -/
/-- Lines 23–26 of nodes.py: seed the path with the node's own name on
the root call, append the name to the (per-branch deep-copied) path
otherwise. -/
def pathSeed (path0 : Option (List String)) (nname : String) : List String :=
  match path0 with
  | Option.none => [nname]
  | some p => p ++ [nname]

/-- Lines 33–40 of nodes.py: `var_type` — `None` for non-Variable
classes, the resolved `VariantType` for Variables, `None` again when
`read_data_type_as_variant_type` raised a (caught) `ua.UaError`. -/
def readVarType (ncls : NodeClassE) (tr : Except Unit VariantType) :
    Option VariantType :=
  if ncls ≠ NodeClassE.Variable then Option.none
  else match tr with
       | .ok t => some t
       | .error _ => Option.none

/-- Lines 41–44 of nodes.py: the `current_value` read.  Performed only
for Variable-classed nodes; the four listed exception classes are
caught and leave `current_value = None`, any other exception
propagates.  For non-Variables the variable is never assigned — the
placeholder `None` here is only ever consulted when `var_type` is
truthy, which requires the Variable class. -/
def readCurrentValue (ncls : NodeClassE) (vr : Except ReadErr Value) :
    Except ReadErr Value :=
  if ncls = NodeClassE.Variable then
    match vr with
    | .ok v => .ok v
    | .error e => if isCaught e then .ok Value.none else .error e
  else .ok Value.none

/-- Lines 45–69 of nodes.py: assembly of the output dictionary from the
already-computed pieces, including the export-mode reshaping. -/
def assembleSnap (nid nname : String) (ncls : NodeClassE)
    (var_type : Option VariantType) (current_value : Value)
    (path : List String) (children : SForest) (to_export : Bool) :
    Snapshot :=
  let varTypeTruthy : Bool :=
    match var_type with
    | some t => vtVal t ≠ 0
    | Option.none => false
  let ty0 : TypeVal :=
    match var_type with
    | some t => .vt t
    | Option.none => .none
  let cv0 : Option Value :=
    if varTypeTruthy then some current_value else Option.none
  if to_export = false then
    .mk nid nname (.num (ncVal ncls)) (some ty0) path cv0 true
      (.present children)
  else
    let children1 : SChildren :=
      match children with
      | .nil => .absent
      | .cons s rest => .present (.cons s rest)
    let ty1 : Option TypeVal :=
      match var_type with
      | some t => if vtVal t ≠ 0 then some (.str (vtName t)) else Option.none
      | Option.none => Option.none
    let cls1 : ClsVal :=
      if ncVal ncls ≠ 0 then .str (ncName ncls) else .num (ncVal ncls)
    let cv1 : Option Value :=
      match cv0 with
      | some v =>
        if truthy v && check_if_object_is_from_module v "asyncua" then
          Option.none
        else some v
      | Option.none => Option.none
    .mk nid nname cls1 ty1 path cv1 false children1

mutual
def browse_nodes : PNode → Bool → Option (List String) → Except ReadErr Snapshot
  | .mk nid ncls nname tr vr ch, to_export, path0 =>
    let path : List String := pathSeed path0 nname
    match browseChildren ch to_export path with
    | .error e => .error e
    | .ok children =>
      match readCurrentValue ncls vr with
      | .error e => .error e
      | .ok current_value =>
        .ok (assembleSnap nid nname ncls (readVarType ncls tr)
               current_value path children to_export)
def browseChildren : PForest → Bool → List String → Except ReadErr SForest
  | .nil, _, _ => .ok .nil
  | .cons c rest, to_export, path =>
    if c.cls = NodeClassE.Object ∨ c.cls = NodeClassE.Variable then
      match browse_nodes c to_export (some path) with
      | .error e => .error e
      | .ok s =>
        match browseChildren rest to_export path with
        | .error e => .error e
        | .ok ss => .ok (.cons s ss)
    else browseChildren rest to_export path
end

/-- `name.startswith("http://")` followed by the slice
`name[len("http://"):]`, on the character-list representation of a
Python `str`. -/
def stripHttp (cs : List Char) : List Char :=
  if cs.take 7 = "http://".data then cs.drop 7 else cs

/-- `re.search(r"^d:", name)` with a digit class before the colon:
true iff the string starts with one digit immediately followed by a
colon. -/
def digitColon : List Char → Bool
  | c1 :: c2 :: _ => c1.isDigit && c2 = ':'
  | _ => false

/-- `fix_name` from nodes.py on character lists: strip a leading
`http://`, then if the result starts with digit-colon replace that
first character with `str(namespace_idx)` (an f-string gluing
`str(namespace_idx)` to `name[1:]`). -/
def fixNameChars (cs : List Char) (namespace_idx : Nat) : List Char :=
  let cs := stripHttp cs
  if digitColon cs then (toString namespace_idx).data ++ cs.drop 1 else cs

/-- `fix_name(name, namespace_idx)` from nodes.py. -/
def fix_name (name : String) (namespace_idx : Nat) : String :=
  ⟨fixNameChars name.data namespace_idx⟩

/-- Modelled from the SPEC text of §4.2 (for comparison with the source
function `fix_name`): rule 1 strips a leading `http://`; rule 2, on a
name matching "single digit followed by a colon, then anything",
replaces the leading digit by the string form of the target namespace
index, preserving everything from the colon onward; rule 3 returns the
name unchanged. -/
def normalizeSpec (name : String) (target_namespace_index : Nat) : String :=
  let cs :=
    if name.data.take 7 = "http://".data then name.data.drop 7 else name.data
  match cs with
  | d :: ':' :: rest =>
    if d.isDigit then ⟨(toString target_namespace_index).data ++ ':' :: rest⟩
    else ⟨cs⟩
  | _ => ⟨cs⟩

/-- A node created on the target server by `add_object` /
`add_variable`: which parent object it was created under, the node id
and browse name it was given, and — for variables — the creation value
and variant type passed to the provider. -/
structure CreatedNode where
  parent : String
  nodeId : String
  nm : String
  isVariable : Bool
  value : Option Value
  vtype : Option VariantType

/-- The target server address space: the list of created nodes, in
creation order.  An object reference is its node-id string. -/
abbrev ServerState := List CreatedNode

/-- How a clone run can stop abnormally: `exitCode 1` is the `exit(1)`
in `add_variable`'s bare `except`; `notImplemented` is the
`NotImplementedError` raised for an unrecognized `cls`; `keyError` is
the dictionary lookup `VariantType[s]` failing on an unknown type
name. -/
inductive CloneErr where
  | exitCode (n : Nat)
  | notImplemented
  | keyError (s : String)
deriving DecidableEq

/-- Lines 128–132 of nodes.py: `node_dict.get("type")` followed by
`if isinstance(node_type, str): node_type = VariantType[node_type]`.
Yields the `VariantType` member or Python `None`; an unknown name
raises `KeyError`. -/
def resolveTy : Option TypeVal → Except CloneErr (Option VariantType)
  | Option.none => .ok Option.none
  | some TypeVal.none => .ok Option.none
  | some (TypeVal.vt t) => .ok (some t)
  | some (TypeVal.str s) =>
    match vtFromName s with
    | some t => .ok (some t)
    | Option.none => .error (.keyError s)

/-- Lines 134–152 of nodes.py: choice of `original_val`.  The argument
`cvGet` is `node_dict.get("current_value")` (Python `None` when the key
is absent); `none` as the result is the `return None` of the
extension-object arm (materialization declined). -/
def resolve_value (node_type : Option VariantType) (cvGet : Value)
    (today : Nat) : Option Value :=
  if truthy cvGet then some cvGet
  else if node_type ∈ [some VariantType.Boolean] then some (.bool false)
  else if node_type ∈ [some VariantType.Int16, some VariantType.UInt16,
                       some VariantType.Int32, some VariantType.UInt32,
                       some VariantType.Int64, some VariantType.UInt64,
                       some VariantType.Float] then some (.int 0)
  else if node_type ∈ [some VariantType.String, some VariantType.LocalizedText,
                       some VariantType.Byte] then some (.str "")
  else if node_type = some VariantType.DateTime then some (.dateTime today)
  else if node_type = some VariantType.ExtensionObject then Option.none
  else some (.float 0)

/-- `add_variable` from nodes.py.  `varOk` is the provider's verdict on
`base_object.add_variable` for a given node id (`false` = the call
raises, landing in the bare `except` that calls `exit(1)`); `today` is
`datetime.datetime.today()`.  On success the created node is appended
to the server state and its node-id string (what
`next_var.nodeid.to_string()` yields back) is returned; `.ok (none, _)`
is the declined `return None`. -/
def add_variable (varOk : String → Bool) (today : Nat) (base_object : String)
    (node_dict : Snapshot) (node_id : String) (st : ServerState) :
    Except CloneErr (Option String × ServerState) :=
  let node_name := node_dict.nm
  match resolveTy node_dict.ty with
  | .error e => .error e
  | .ok node_type =>
    let cvGet : Value := (node_dict.cv).getD Value.none
    match resolve_value node_type cvGet today with
    | Option.none => .ok (Option.none, st)
    | some original_val =>
      if varOk node_id then
        .ok (some node_id,
             st ++ [⟨base_object, node_id, node_name, true, some original_val,
                     node_type⟩])
      else .error (.exitCode 1)

/-- Python truthiness of `nodes_dict.get("children")`: the key is
absent, or holds an empty list, iff falsy. -/
def childrenTruthy : SChildren → Bool
  | .absent => false
  | .present .nil => false
  | .present (.cons _ _) => true

/- `clone_nodes` from nodes.py, together with its loop over
`nodes_dict["children"]` (`cloneChildren`).  The result carries the
accumulated `mapping_list`, the post-call value of the (mutated)
snapshot dictionary, and the target server state.  `base_object.
add_object(node_id, name)` is modelled as appending an object node and
returning `node_id` as the new parent reference. -/
mutual
def clone_nodes (varOk : String → Bool) (today : Nat) :
    Snapshot → String → Nat → String → ServerState →
    Except CloneErr (List (String × String) × Snapshot × ServerState)
  | .mk id nm cls ty path cv hn ch, base_object, idx, pfx, st =>
    let node_id := pfx ++ id
    let nm1 := fix_name nm idx
    if cls = ClsVal.num 1 ∨ cls = ClsVal.str "Object" then
      match ch with
      | .present (.cons c0 cs0) =>
        let st1 := st ++ [⟨base_object, node_id, nm1, false, Option.none,
                           Option.none⟩]
        match cloneChildren varOk today (.cons c0 cs0) node_id idx pfx st1 with
        | .error e => .error e
        | .ok (pairs, l1, st2) =>
          .ok (pairs, .mk id nm1 cls ty path cv hn (.present l1), st2)
      | .present .nil => .ok ([], .mk id nm1 cls ty path cv hn ch, st)
      | .absent => .ok ([], .mk id nm1 cls ty path cv hn ch, st)
    else if cls = ClsVal.num 2 ∨ cls = ClsVal.str "Variable" then
      let snap1 : Snapshot := .mk id nm1 cls ty path cv hn ch
      match add_variable varOk today base_object snap1 node_id st with
      | .error e => .error e
      | .ok (Option.none, st1) => .ok ([], snap1, st1)
      | .ok (some mapped_id, st1) => .ok ([(id, mapped_id)], snap1, st1)
    else .error .notImplemented
def cloneChildren (varOk : String → Bool) (today : Nat) :
    SForest → String → Nat → String → ServerState →
    Except CloneErr (List (String × String) × SForest × ServerState)
  | .nil, _, _, _, st => .ok ([], .nil, st)
  | .cons c rest, base_object, idx, pfx, st =>
    match clone_nodes varOk today c base_object idx pfx st with
    | .error e => .error e
    | .ok (m1, c1, st1) =>
      match cloneChildren varOk today rest base_object idx pfx st1 with
      | .error e => .error e
      | .ok (m2, rest1, st2) => .ok (m1 ++ m2, .cons c1 rest1, st2)
end

/- Auxiliary observers on snapshot trees, used to state the claims. -/

mutual
/-- All snapshots of a snapshot tree (the node itself and, when a
`children` key is present, every node of every child subtree). -/
def treeNodes : Snapshot → List Snapshot
  | .mk i n c t p v h ch =>
    .mk i n c t p v h ch ::
      (match ch with
       | .absent => []
       | .present l => forestNodes l)
def forestNodes : SForest → List Snapshot
  | .nil => []
  | .cons s rest => treeNodes s ++ forestNodes rest
end

/-- All `path` values recorded anywhere in a snapshot tree. -/
def snapPaths (s : Snapshot) : List (List String) :=
  (treeNodes s).map Snapshot.path

mutual
/-- Node ids reachable from a node through children of class Object or
Variable only (the node's own id included): the ids `browse_nodes` is
allowed to visit. -/
def allowedIds : PNode → List String
  | .mk i _ _ _ _ ch => i :: allowedIdsForest ch
def allowedIdsForest : PForest → List String
  | .nil => []
  | .cons c rest =>
    (if c.cls = NodeClassE.Object ∨ c.cls = NodeClassE.Variable then
       allowedIds c
     else []) ++ allowedIdsForest rest
end

mutual
/-- Browse names of the strict descendants of a node (through all
children, of any class). -/
def namesBelow : PNode → List String
  | .mk _ _ _ _ _ ch => namesForest ch
def namesForest : PForest → List String
  | .nil => []
  | .cons c rest => c.nm :: (namesBelow c ++ namesForest rest)
end

mutual
/-- Erase every `nm` field of a snapshot tree (used to state that clone
touches nothing but names). -/
def stripNames : Snapshot → Snapshot
  | .mk i _ c t p v h ch => .mk i "" c t p v h (stripNamesC ch)
def stripNamesC : SChildren → SChildren
  | .absent => .absent
  | .present l => .present (stripNamesF l)
def stripNamesF : SForest → SForest
  | .nil => .nil
  | .cons s rest => .cons (stripNames s) (stripNamesF rest)
end

/-- Replace the `cls` field of the root snapshot. -/
def setCls : Snapshot → ClsVal → Snapshot
  | .mk i n _ t p v h ch, c => .mk i n c t p v h ch

/-- The `cls` encodings that mean Object or Variable in a snapshot:
the numeric codes 1 / 2 (internal mode) or the symbolic names (export
mode), exactly the encodings `clone_nodes` accepts. -/
def clsAllowed (c : ClsVal) : Prop :=
  c = .num 1 ∨ c = .num 2 ∨ c = .str "Object" ∨ c = .str "Variable"

instance (c : ClsVal) : Decidable (clsAllowed c) := by
  unfold clsAllowed; infer_instance

/-- The root snapshot of an export result, if the export succeeded. -/
def resSnap : Except ReadErr Snapshot → Option Snapshot
  | .ok s => some s
  | .error _ => Option.none

/-- The value `get_value` returned for a node, with Python `None`
standing in for a caught failure (what line 44 of nodes.py assigns). -/
def readVal (n : PNode) : Value :=
  match n.valueRead with
  | .ok v => v
  | .error _ => Value.none

/- Theorems. -/

/-- C7: `fix_name` is a pure deterministic function of its two
arguments applying the rules in order — strip a leading `http://`
prefix, then if the name matches a single digit followed by a colon
replace that digit with the string form of the target namespace index,
otherwise return the name unchanged; in particular
`fix_name ("http://foo/bar") 3 = "foo/bar"`,
`fix_name ("1:Pressure") 5 = "5:Pressure"` and
`fix_name ("Pressure") 5 = "Pressure"`.  Purity and determinism are
inherent in the embedding as a Lean function of exactly the two
arguments; agreement with the spec's rules is the extensional equality
with `normalizeSpec`, which transcribes §4.2 of the spec. -/
theorem fix_name_matches_spec :
    (∀ nm i, fix_name nm i = normalizeSpec nm i) ∧
    fix_name "http://foo/bar" 3 = "foo/bar" ∧
    fix_name "1:Pressure" 5 = "5:Pressure" ∧
    fix_name "Pressure" 5 = "Pressure" := by
  refine ⟨?_, rfl, rfl, rfl⟩
  intro nm i
  simp only [fix_name, normalizeSpec, fixNameChars, stripHttp]
  generalize (if nm.data.take 7 = "http://".data then nm.data.drop 7 else nm.data) = cs
  rcases cs with _ | ⟨c1, _ | ⟨c2, rest⟩⟩
  · rfl
  · rfl
  · by_cases hc2 : c2 = ':'
    · subst hc2
      by_cases hd : c1.isDigit <;> simp [digitColon, hd]
    · simp [digitColon, hc2]

/-- `add_variable` never consults the snapshot's `cls` field. -/
theorem add_variable_ignores_cls (varOk : String → Bool) (today : Nat)
    (b id nm : String) (c1 c2 : ClsVal) (ty : Option TypeVal)
    (p : List String) (cv : Option Value) (h : Bool) (ch : SChildren)
    (nid : String) (st : ServerState) :
    add_variable varOk today b (.mk id nm c1 ty p cv h ch) nid st =
    add_variable varOk today b (.mk id nm c2 ty p cv h ch) nid st := rfl

/-- C10: `clone_nodes` accepts both snapshot encodings of the class
field interchangeably — `cls = 1` and `cls = "Object"` behave
identically (same mapping, same server state, same processing of the
subtree; the returned snapshot keeps its own `cls` value), likewise
`cls = 2` and `cls = "Variable"`; any other `cls` value raises
`NotImplementedError`. -/
theorem clone_cls_encodings (varOk : String → Bool) (today : Nat)
    (id nm : String) (ty : Option TypeVal) (path : List String)
    (cv : Option Value) (hn : Bool) (ch : SChildren)
    (base : String) (idx : Nat) (pfx : String) (st : ServerState) :
    (clone_nodes varOk today (.mk id nm (.str "Object") ty path cv hn ch)
        base idx pfx st
      = (clone_nodes varOk today (.mk id nm (.num 1) ty path cv hn ch)
          base idx pfx st).map
         (fun r => (r.1, setCls r.2.1 (.str "Object"), r.2.2))) ∧
    (clone_nodes varOk today (.mk id nm (.str "Variable") ty path cv hn ch)
        base idx pfx st
      = (clone_nodes varOk today (.mk id nm (.num 2) ty path cv hn ch)
          base idx pfx st).map
         (fun r => (r.1, setCls r.2.1 (.str "Variable"), r.2.2))) ∧
    (∀ cls, ¬ clsAllowed cls →
      clone_nodes varOk today (.mk id nm cls ty path cv hn ch)
        base idx pfx st = .error .notImplemented) := by
  refine ⟨?_, ?_, ?_⟩
  · rcases ch with _ | (_ | ⟨c0, cs0⟩)
    · rfl
    · rfl
    · simp only [clone_nodes, or_true, true_or, if_true]
      rcases hcc : cloneChildren varOk today (.cons c0 cs0) (pfx ++ id) idx pfx
          (st ++ [⟨base, pfx ++ id, fix_name nm idx, false, Option.none,
                  Option.none⟩]) with e | ⟨pairs, l1, st2⟩ <;>
        rw [hcc] <;> rfl
  · simp only [clone_nodes, or_true, true_or, if_true]
    rw [if_neg (by decide :
          ¬(ClsVal.str "Variable" = ClsVal.num 1 ∨
            ClsVal.str "Variable" = ClsVal.str "Object")),
        if_neg (by decide :
          ¬(ClsVal.num 2 = ClsVal.num 1 ∨ ClsVal.num 2 = ClsVal.str "Object")),
        add_variable_ignores_cls varOk today base id (fix_name nm idx)
          (.str "Variable") (.num 2) ty path cv hn ch]
    rcases hav : add_variable varOk today base
        (.mk id (fix_name nm idx) (.num 2) ty path cv hn ch) (pfx ++ id) st
      with e | ⟨_ | mapped, st1⟩ <;> rfl
  · intro cls hcls
    have h1 : ¬(cls = ClsVal.num 1 ∨ cls = ClsVal.str "Object") := by
      rintro (h | h) <;> exact hcls (by unfold clsAllowed; tauto)
    have h2 : ¬(cls = ClsVal.num 2 ∨ cls = ClsVal.str "Variable") := by
      rintro (h | h) <;> exact hcls (by unfold clsAllowed; tauto)
    rw [clone_nodes.eq_def]
    dsimp only
    rw [if_neg h1, if_neg h2]

/-- Witness for C10 at a concrete input: a snapshot whose `cls` is the
numeric code 7 makes `clone_nodes` raise `NotImplementedError`. -/
theorem clone_cls_encodings_witness :
    clone_nodes (fun _ => true) 0
      (.mk "i" "n" (.num 7) Option.none [] Option.none false .absent)
      "b" 0 "" [] = .error .notImplemented :=
  (clone_cls_encodings (fun _ => true) 0 "i" "n" Option.none [] Option.none
      false .absent "b" 0 "" []).2.2 (.num 7) (by decide)

/-- `truthy` evaluates to `false` on Python `None`. -/
theorem truthy_none : truthy Value.none = false := rfl

/-- C3 counterexample: a Variable snapshot of declared type `String`
whose captured `current_value` is the present-but-falsy `0` is NOT
materialized with `0`: `add_variable` creates the node with the type
default `""` instead (presence of the key does not decide; truthiness
does).  The claim's required verbatim value `0` differs from the value
actually used. -/
theorem add_variable_truthiness_cex :
    add_variable (fun _ => true) 0 "base"
      (.mk "i" "n" (.str "Variable") (some (.str "String")) []
        (some (.int 0)) false .absent) "i" []
      = .ok (some "i", [⟨"base", "i", "n", true, some (.str ""),
                         some .String⟩]) ∧
    Value.str "" ≠ Value.int 0 :=
  ⟨rfl, by decide⟩

/-- C3 amended: the value materializer uses the captured value verbatim
iff it is truthy — whenever `current_value` is present with a truthy
value it is passed to the provider unchanged (for every declared type),
and whenever it is present but falsy `add_variable` behaves exactly as
if the `current_value` key were absent, falling back to the
type-derived default. -/
theorem add_variable_uses_truthy_value (varOk : String → Bool) (today : Nat)
    (base id nm : String) (cls : ClsVal) (ty : Option TypeVal)
    (path : List String) (hn : Bool) (ch : SChildren) (nid : String)
    (st : ServerState) (v : Value) :
    (truthy v = true →
      add_variable varOk today base (.mk id nm cls ty path (some v) hn ch)
          nid st
        = match resolveTy ty with
          | .error e => .error e
          | .ok nt =>
            if varOk nid then
              .ok (some nid, st ++ [⟨base, nid, nm, true, some v, nt⟩])
            else .error (.exitCode 1)) ∧
    (truthy v = false →
      add_variable varOk today base (.mk id nm cls ty path (some v) hn ch)
          nid st
        = add_variable varOk today base
            (.mk id nm cls ty path Option.none hn ch) nid st) := by
  constructor <;> intro htv
  · have hv : ∀ nt : Option VariantType, resolve_value nt v today = some v := by
      intro nt
      simp only [resolve_value, htv, if_true]
    simp only [add_variable, Snapshot.nm, Snapshot.ty, Snapshot.cv,
      Option.getD, hv]
  · have hv : ∀ nt : Option VariantType,
        resolve_value nt v today = resolve_value nt Value.none today := by
      intro nt
      simp only [resolve_value, htv, truthy_none, Bool.false_eq_true, if_false]
    simp only [add_variable, Snapshot.nm, Snapshot.ty, Snapshot.cv,
      Option.getD, hv]

/-- Witness for the amended C3 at concrete inputs: a truthy captured
`5` is created verbatim; a falsy captured `0` behaves as if absent. -/
theorem add_variable_uses_truthy_value_witness :
    (add_variable (fun _ => true) 0 "b"
        (.mk "i" "n" (.str "Variable") (some (.str "String")) []
          (some (.int 5)) false .absent) "i" []
      = .ok (some "i", [⟨"b", "i", "n", true, some (.int 5),
                         some .String⟩])) ∧
    (add_variable (fun _ => true) 0 "b"
        (.mk "i" "n" (.str "Variable") (some (.str "String")) []
          (some (.int 0)) false .absent) "i" []
      = add_variable (fun _ => true) 0 "b"
          (.mk "i" "n" (.str "Variable") (some (.str "String")) []
            Option.none false .absent) "i" []) :=
  ⟨((add_variable_uses_truthy_value (fun _ => true) 0 "b" "i" "n"
      (.str "Variable") (some (.str "String")) [] false .absent "i" []
      (.int 5)).1 rfl).trans rfl,
   (add_variable_uses_truthy_value (fun _ => true) 0 "b" "i" "n"
      (.str "Variable") (some (.str "String")) [] false .absent "i" []
      (.int 0)).2 rfl⟩

/-- C5 counterexample: a Variable snapshot with
`declared_type = ExtensionObject` but a truthy captured
`current_value = 42` DOES create a node on the target and DOES
contribute an ID-mapping entry — the truthy-value arm of `add_variable`
runs before the extension-object decline, so the claim's universal
"produces no created node and no mapping entry" fails. -/
theorem clone_extension_object_cex :
    clone_nodes (fun _ => true) 0
      (.mk "src" "n" (.str "Variable") (some (.str "ExtensionObject")) []
        (some (.int 42)) false .absent) "b" 0 "" []
      = .ok ([("src", "src")],
             .mk "src" "n" (.str "Variable") (some (.str "ExtensionObject")) []
               (some (.int 42)) false .absent,
             [⟨"b", "src", "n", true, some (.int 42),
               some .ExtensionObject⟩]) ∧
    ([("src", "src")] : List (String × String)) ≠ [] :=
  ⟨rfl, by decide⟩

/-- With a falsy captured value, `resolve_value` declines an
extension-object type (the `return None` arm of `add_variable`). -/
theorem resolve_value_ext_declines (cvGet : Value) (today : Nat)
    (hcv : truthy cvGet = false) :
    resolve_value (some .ExtensionObject) cvGet today = Option.none := by
  simp [resolve_value, hcv]

/-- When value resolution declines, `add_variable` creates nothing and
returns `None`, leaving the server state unchanged. -/
theorem add_variable_declines (varOk : String → Bool) (today : Nat)
    (base : String) (snap : Snapshot) (nid : String) (st : ServerState)
    (nt : Option VariantType)
    (hty : resolveTy snap.ty = .ok nt)
    (hrv : resolve_value nt ((snap.cv).getD Value.none) today = Option.none) :
    add_variable varOk today base snap nid st = .ok (Option.none, st) := by
  simp only [add_variable, hty, hrv]

/-- C5 amended: a Variable snapshot whose declared type resolves to
`ExtensionObject` and whose captured `current_value` is absent or falsy
produces no created node on the target, contributes no ID-mapping
entry, and returns normally (so the caller's sibling traversal
continues); the input snapshot is only renamed in place.  (When a
truthy `current_value` is present it is used verbatim and a node IS
created — see the counterexample.) -/
theorem clone_extension_object_declines (varOk : String → Bool)
    (today : Nat) (id nm : String) (cls : ClsVal) (ty : Option TypeVal)
    (path : List String) (cv : Option Value) (hn : Bool) (ch : SChildren)
    (base : String) (idx : Nat) (pfx : String) (st : ServerState)
    (hcls : cls = ClsVal.num 2 ∨ cls = ClsVal.str "Variable")
    (hty : resolveTy ty = .ok (some .ExtensionObject))
    (hcv : truthy (cv.getD Value.none) = false) :
    clone_nodes varOk today (.mk id nm cls ty path cv hn ch) base idx pfx st
      = .ok ([], .mk id (fix_name nm idx) cls ty path cv hn ch, st) := by
  rcases hcls with h | h <;> subst h <;>
    simp only [clone_nodes, or_true, true_or, if_true]
  · rw [if_neg (by decide :
        ¬(ClsVal.num 2 = ClsVal.num 1 ∨ ClsVal.num 2 = ClsVal.str "Object")),
      add_variable_declines varOk today base
        (.mk id (fix_name nm idx) (.num 2) ty path cv hn ch) (pfx ++ id) st
        (some .ExtensionObject) hty
        (resolve_value_ext_declines _ today hcv)]
  · rw [if_neg (by decide :
        ¬(ClsVal.str "Variable" = ClsVal.num 1 ∨
          ClsVal.str "Variable" = ClsVal.str "Object")),
      add_variable_declines varOk today base
        (.mk id (fix_name nm idx) (.str "Variable") ty path cv hn ch)
        (pfx ++ id) st (some .ExtensionObject) hty
        (resolve_value_ext_declines _ today hcv)]

/-- Witness for the amended C5 at a concrete input. -/
theorem clone_extension_object_declines_witness :
    clone_nodes (fun _ => true) 7
      (.mk "src" "n" (.str "Variable") (some (.str "ExtensionObject")) []
        Option.none false .absent) "b" 3 "p-" []
      = .ok ([], .mk "src" "n" (.str "Variable")
               (some (.str "ExtensionObject")) [] Option.none false .absent,
             []) :=
  clone_extension_object_declines (fun _ => true) 7 "src" "n"
    (.str "Variable") (some (.str "ExtensionObject")) [] Option.none false
    .absent "b" 3 "p-" [] (Or.inr rfl) rfl rfl

/-- C6 counterexample: two Variable snapshots with different ids and
different recorded paths both make the clone fail with the very same
outcome, `exit(1)` (exit status 1, nothing else): the failure reaching
the caller is not distinguishable per node and carries no node-path
context — only the warning log (node name and type, not the path) is
emitted before the process exits. -/
theorem clone_create_failure_cex :
    clone_nodes (fun _ => false) 0
      (.mk "idA" "nA" (.str "Variable") (some (.str "Int32"))
        ["rootA", "nA"] Option.none false .absent) "b" 0 "" []
      = .error (.exitCode 1) ∧
    clone_nodes (fun _ => false) 0
      (.mk "idB" "nB" (.str "Variable") (some (.str "Int32"))
        ["rootB", "nB"] Option.none false .absent) "b" 0 "" []
      = .error (.exitCode 1) ∧
    (["rootA", "nA"] : List String) ≠ ["rootB", "nB"] :=
  ⟨rfl, rfl, by decide⟩

/-- When the provider's create-variable call raises, `add_variable`
lands in the bare `except` and the process exits with status 1. -/
theorem add_variable_exit (varOk : String → Bool) (today : Nat)
    (base : String) (snap : Snapshot) (nid : String) (st : ServerState)
    (nt : Option VariantType) (v : Value)
    (hty : resolveTy snap.ty = .ok nt)
    (hrv : resolve_value nt ((snap.cv).getD Value.none) today = some v)
    (hfail : varOk nid = false) :
    add_variable varOk today base snap nid st = .error (.exitCode 1) := by
  simp only [add_variable, hty, hrv, hfail, Bool.false_eq_true, if_false]

/-- C6 amended: when the provider's create-variable call fails during
clone for any reason other than the declined extension-object case
(i.e. value resolution produced a value), the whole clone operation
stops — nothing is silently skipped per node — but the failure is the
uniform process exit with status 1: it is not a distinguishable
per-node failure and it carries no node-path context (the preceding
log warnings carry only the node name and type). -/
theorem clone_create_failure_exits (varOk : String → Bool) (today : Nat)
    (id nm : String) (cls : ClsVal) (ty : Option TypeVal)
    (path : List String) (cv : Option Value) (hn : Bool) (ch : SChildren)
    (base : String) (idx : Nat) (pfx : String) (st : ServerState)
    (nt : Option VariantType) (v : Value)
    (hcls : cls = ClsVal.num 2 ∨ cls = ClsVal.str "Variable")
    (hty : resolveTy ty = .ok nt)
    (hrv : resolve_value nt (cv.getD Value.none) today = some v)
    (hfail : varOk (pfx ++ id) = false) :
    clone_nodes varOk today (.mk id nm cls ty path cv hn ch) base idx pfx st
      = .error (.exitCode 1) := by
  rcases hcls with h | h <;> subst h <;>
    simp only [clone_nodes, or_true, true_or, if_true]
  · rw [if_neg (by decide :
        ¬(ClsVal.num 2 = ClsVal.num 1 ∨ ClsVal.num 2 = ClsVal.str "Object")),
      add_variable_exit varOk today base
        (.mk id (fix_name nm idx) (.num 2) ty path cv hn ch) (pfx ++ id) st
        nt v hty hrv hfail]
  · rw [if_neg (by decide :
        ¬(ClsVal.str "Variable" = ClsVal.num 1 ∨
          ClsVal.str "Variable" = ClsVal.str "Object")),
      add_variable_exit varOk today base
        (.mk id (fix_name nm idx) (.str "Variable") ty path cv hn ch)
        (pfx ++ id) st nt v hty hrv hfail]

/-- Witness for the amended C6 at a concrete input. -/
theorem clone_create_failure_exits_witness :
    clone_nodes (fun _ => false) 0
      (.mk "i" "n" (.num 2) (some (.vt .Boolean)) ["r"] Option.none true
        .absent) "b" 0 "ns=3;" []
      = .error (.exitCode 1) :=
  clone_create_failure_exits (fun _ => false) 0 "i" "n" (.num 2)
    (some (.vt .Boolean)) ["r"] Option.none true .absent "b" 0 "ns=3;" []
    (some .Boolean) (.bool false) (Or.inl rfl) rfl rfl rfl

/-- C9 counterexample: cloning a snapshot whose name is `"1:Foo"` with
namespace index 5 hands back the snapshot with its `name` field changed
in place to `"5:Foo"` — the input dictionary is not left equal to what
was passed in. -/
theorem clone_mutates_snapshot_cex :
    (clone_nodes (fun _ => true) 0
      (.mk "i" "1:Foo" (.num 2) (some (.vt .Int32)) [] Option.none false
        .absent) "b" 5 "" []).map (fun r => r.2.1.nm) = .ok "5:Foo" ∧
    "5:Foo" ≠ "1:Foo" :=
  ⟨rfl, by decide⟩

mutual
/-- Helper for C9, by mutual induction: a successful `clone_nodes`
returns the input snapshot unchanged except for `name` fields, and the
root's name is its in-place normalization. -/
theorem clone_stripNames_aux (varOk : String → Bool) (today : Nat) :
    ∀ (s : Snapshot) (base : String) (idx : Nat) (pfx : String)
      (st : ServerState) (m : List (String × String)) (s2 : Snapshot)
      (st2 : ServerState),
      clone_nodes varOk today s base idx pfx st = .ok (m, s2, st2) →
      stripNames s2 = stripNames s ∧ s2.nm = fix_name s.nm idx
  | .mk id nm cls ty path cv hn ch, base, idx, pfx, st, m, s2, st2 => by
    intro hok
    rw [clone_nodes.eq_def] at hok
    dsimp only at hok
    by_cases hobj : cls = ClsVal.num 1 ∨ cls = ClsVal.str "Object"
    · rw [if_pos hobj] at hok
      rcases ch with _ | (_ | ⟨c0, cs0⟩)
      · dsimp only at hok
        simp only [Except.ok.injEq, Prod.mk.injEq] at hok
        obtain ⟨-, hs, -⟩ := hok
        subst hs
        exact ⟨rfl, rfl⟩
      · dsimp only at hok
        simp only [Except.ok.injEq, Prod.mk.injEq] at hok
        obtain ⟨-, hs, -⟩ := hok
        subst hs
        exact ⟨rfl, rfl⟩
      · dsimp only at hok
        rcases hcc : cloneChildren varOk today (.cons c0 cs0) (pfx ++ id)
            idx pfx
            (st ++ [⟨base, pfx ++ id, fix_name nm idx, false, Option.none,
                    Option.none⟩]) with e | ⟨pairs, l1, st2a⟩ <;>
          rw [hcc] at hok
        · exact absurd hok (by simp)
        · dsimp only at hok
          simp only [Except.ok.injEq, Prod.mk.injEq] at hok
          obtain ⟨-, hs, -⟩ := hok
          subst hs
          have hrec := cloneChildren_stripNames_aux varOk today
            (.cons c0 cs0) (pfx ++ id) idx pfx
            (st ++ [⟨base, pfx ++ id, fix_name nm idx, false, Option.none,
                    Option.none⟩]) pairs l1 st2a hcc
          refine ⟨?_, rfl⟩
          simp only [stripNames, stripNamesC, hrec]
    · rw [if_neg hobj] at hok
      by_cases hvar : cls = ClsVal.num 2 ∨ cls = ClsVal.str "Variable"
      · rw [if_pos hvar] at hok
        rcases hav : add_variable varOk today base
            (.mk id (fix_name nm idx) cls ty path cv hn ch) (pfx ++ id) st
          with e | ⟨r1 | mapped, st1⟩ <;> rw [hav] at hok
        · exact absurd hok (by simp)
        · dsimp only at hok
          simp only [Except.ok.injEq, Prod.mk.injEq] at hok
          obtain ⟨-, hs, -⟩ := hok
          subst hs
          exact ⟨rfl, rfl⟩
        · dsimp only at hok
          simp only [Except.ok.injEq, Prod.mk.injEq] at hok
          obtain ⟨-, hs, -⟩ := hok
          subst hs
          exact ⟨rfl, rfl⟩
      · rw [if_neg hvar] at hok
        exact absurd hok (by simp)
/-- Companion of `clone_stripNames_aux` for the children loop. -/
theorem cloneChildren_stripNames_aux (varOk : String → Bool) (today : Nat) :
    ∀ (l : SForest) (base : String) (idx : Nat) (pfx : String)
      (st : ServerState) (m : List (String × String)) (l2 : SForest)
      (st2 : ServerState),
      cloneChildren varOk today l base idx pfx st = .ok (m, l2, st2) →
      stripNamesF l2 = stripNamesF l
  | .nil, base, idx, pfx, st, m, l2, st2 => by
    intro hok
    simp only [cloneChildren, Except.ok.injEq, Prod.mk.injEq] at hok
    obtain ⟨-, hl, -⟩ := hok
    subst hl
    rfl
  | .cons c rest, base, idx, pfx, st, m, l2, st2 => by
    intro hok
    rw [cloneChildren.eq_def] at hok
    dsimp only at hok
    rcases hc1 : clone_nodes varOk today c base idx pfx st
      with e | ⟨m1, c1, st1⟩ <;> rw [hc1] at hok
    · exact absurd hok (by simp)
    · dsimp only at hok
      rcases hc2 : cloneChildren varOk today rest base idx pfx st1
        with e | ⟨m2, rest1, st2a⟩ <;> rw [hc2] at hok
      · exact absurd hok (by simp)
      · dsimp only at hok
        simp only [Except.ok.injEq, Prod.mk.injEq] at hok
        obtain ⟨-, hl, -⟩ := hok
        subst hl
        have ih1 := clone_stripNames_aux varOk today c base idx pfx st m1
          c1 st1 hc1
        have ih2 := cloneChildren_stripNames_aux varOk today rest base idx
          pfx st1 m2 rest1 st2a hc2
        simp only [stripNamesF, ih1.1, ih2]
end

/-- C9 amended: `clone_nodes` hands the snapshot back unchanged in
every field except `name`: erasing all `name` fields yields exactly the
input tree (same ids, classes, types, paths, captured values, live
references and children shape), while the root's `name` has been
overwritten in place with its normalized form `fix_name name idx` (and
visited children were renamed the same way, recursively). -/
theorem clone_frame_names_only (varOk : String → Bool) (today : Nat)
    (s : Snapshot) (base : String) (idx : Nat) (pfx : String)
    (st : ServerState) (m : List (String × String)) (s2 : Snapshot)
    (st2 : ServerState)
    (hok : clone_nodes varOk today s base idx pfx st = .ok (m, s2, st2)) :
    stripNames s2 = stripNames s ∧ s2.nm = fix_name s.nm idx :=
  clone_stripNames_aux varOk today s base idx pfx st m s2 st2 hok

/-- Witness for the amended C9 at a concrete input. -/
theorem clone_frame_names_only_witness :
    stripNames (Snapshot.mk "i" "5:Foo" (.num 2) (some (.vt .Int32)) []
        Option.none false .absent)
      = stripNames (.mk "i" "1:Foo" (.num 2) (some (.vt .Int32)) []
        Option.none false .absent) ∧
    (Snapshot.mk "i" "5:Foo" (.num 2) (some (.vt .Int32)) [] Option.none
        false .absent).nm = fix_name "1:Foo" 5 :=
  clone_frame_names_only (fun _ => true) 0
    (.mk "i" "1:Foo" (.num 2) (some (.vt .Int32)) [] Option.none false
      .absent) "b" 5 "" []
    [("i", "i")]
    (.mk "i" "5:Foo" (.num 2) (some (.vt .Int32)) [] Option.none false
      .absent)
    [⟨"b", "i", "5:Foo", true, some (.int 0), some .Int32⟩] rfl

/-- Inversion: a successful export is the assembly of a successful
children walk and a successful (possibly downgraded) value read. -/
theorem browse_nodes_ok_elim (nid : String) (ncls : NodeClassE)
    (nname : String) (tr : Except Unit VariantType)
    (vr : Except ReadErr Value) (ch : PForest) (ex : Bool)
    (p : Option (List String)) (s : Snapshot)
    (hok : browse_nodes (.mk nid ncls nname tr vr ch) ex p = .ok s) :
    ∃ f0 cvv, browseChildren ch ex (pathSeed p nname) = .ok f0 ∧
      readCurrentValue ncls vr = .ok cvv ∧
      s = assembleSnap nid nname ncls (readVarType ncls tr) cvv
            (pathSeed p nname) f0 ex := by
  rw [browse_nodes.eq_def] at hok
  dsimp only at hok
  rcases hbc : browseChildren ch ex (pathSeed p nname) with e | f0 <;>
    rw [hbc] at hok
  · exact absurd hok (by simp)
  · dsimp only at hok
    rcases hcv : readCurrentValue ncls vr with e | cvv <;> rw [hcv] at hok
    · exact absurd hok (by simp)
    · exact ⟨f0, cvv, rfl, rfl, (Except.ok.inj hok).symm⟩

/-- Introduction: when the children walk and the value read both come
back, the export returns the assembled snapshot (it does not abort). -/
theorem browse_nodes_ok_intro (nid : String) (ncls : NodeClassE)
    (nname : String) (tr : Except Unit VariantType)
    (vr : Except ReadErr Value) (ch : PForest) (ex : Bool)
    (p : Option (List String)) (f0 : SForest) (cvv : Value)
    (hbc : browseChildren ch ex (pathSeed p nname) = .ok f0)
    (hcv : readCurrentValue ncls vr = .ok cvv) :
    browse_nodes (.mk nid ncls nname tr vr ch) ex p =
      .ok (assembleSnap nid nname ncls (readVarType ncls tr) cvv
        (pathSeed p nname) f0 ex) := by
  rw [browse_nodes.eq_def]
  dsimp only
  rw [hbc]
  dsimp only
  rw [hcv]

/-- The `id` field of an assembled snapshot. -/
theorem assembleSnap_id (nid nname : String) (ncls : NodeClassE)
    (vt : Option VariantType) (cvv : Value) (path : List String)
    (ch : SForest) (ex : Bool) :
    (assembleSnap nid nname ncls vt cvv path ch ex).id = nid := by
  cases ex <;> simp [assembleSnap, Snapshot.id]

/-- The `name` field of an assembled snapshot. -/
theorem assembleSnap_nm (nid nname : String) (ncls : NodeClassE)
    (vt : Option VariantType) (cvv : Value) (path : List String)
    (ch : SForest) (ex : Bool) :
    (assembleSnap nid nname ncls vt cvv path ch ex).nm = nname := by
  cases ex <;> simp [assembleSnap, Snapshot.nm]

/-- The `path` field of an assembled snapshot. -/
theorem assembleSnap_path (nid nname : String) (ncls : NodeClassE)
    (vt : Option VariantType) (cvv : Value) (path : List String)
    (ch : SForest) (ex : Bool) :
    (assembleSnap nid nname ncls vt cvv path ch ex).path = path := by
  cases ex <;> simp [assembleSnap, Snapshot.path]

/-- The `cls` field of an assembled snapshot: the numeric code in
internal mode or for `Unspecified` (value 0, falsy), the symbolic name
otherwise. -/
theorem assembleSnap_cls (nid nname : String) (ncls : NodeClassE)
    (vt : Option VariantType) (cvv : Value) (path : List String)
    (ch : SForest) (ex : Bool) :
    (assembleSnap nid nname ncls vt cvv path ch ex).cls =
      (if ex = true ∧ ncVal ncls ≠ 0 then .str (ncName ncls)
       else .num (ncVal ncls)) := by
  cases ex <;> by_cases h : ncVal ncls = 0 <;>
    simp [assembleSnap, Snapshot.cls, h]

/-- The `children` field of an assembled snapshot: always present in
internal mode, present iff nonempty in export mode. -/
theorem assembleSnap_children (nid nname : String) (ncls : NodeClassE)
    (vt : Option VariantType) (cvv : Value) (path : List String)
    (ch : SForest) (ex : Bool) :
    (assembleSnap nid nname ncls vt cvv path ch ex).children =
      (if ex = true then
        match ch with
        | .nil => .absent
        | .cons a b => .present (.cons a b)
       else .present ch) := by
  cases ex <;> cases ch <;> simp [assembleSnap, Snapshot.children]

/-- The `current_value` field of an assembled snapshot: present iff the
resolved variant type is truthy and, in export mode, the captured value
is not a truthy asyncua-module object. -/
theorem assembleSnap_cv (nid nname : String) (ncls : NodeClassE)
    (vt : Option VariantType) (cvv : Value) (path : List String)
    (ch : SForest) (ex : Bool) :
    (assembleSnap nid nname ncls vt cvv path ch ex).cv =
      (match vt with
       | some t =>
         if vtVal t ≠ 0 then
           if ex = true ∧
              (truthy cvv && check_if_object_is_from_module cvv "asyncua")
                = true
           then Option.none
           else some cvv
         else Option.none
       | Option.none => Option.none) := by
  rcases vt with _ | t
  · cases ex <;> simp [assembleSnap, Snapshot.cv]
  · by_cases ht : vtVal t = 0
    · cases ex <;> simp [assembleSnap, Snapshot.cv, ht]
    · cases ex <;>
        by_cases hb : (truthy cvv &&
          check_if_object_is_from_module cvv "asyncua") = true <;>
        simp [assembleSnap, Snapshot.cv, ht, hb]

/-- C2 counterexample: exporting a Variable whose declared type resolves
(to `Int32`) but whose value read fails with `BadOutOfService` — one of
the defined transient errors — yields a snapshot in which
`current_value` IS present, holding null (`None`), not absent as the
claim requires. -/
theorem browse_transient_value_cex :
    (browse_nodes (.mk "i" .Variable "n" (.ok .Int32)
        (.error .badOutOfService) .nil) true Option.none).map Snapshot.cv
      = .ok (some Value.none) ∧
    some Value.none ≠ (Option.none : Option Value) :=
  ⟨rfl, by decide⟩

/-- C2 amended: in every successfully exported snapshot, `current_value`
is present iff the node's class is Variable AND the declared-type read
succeeded with a truthy (non-Null) variant type AND (in export mode) the
stored value is not a truthy asyncua-module object; its stored value is
the read value, or null when the read failed with one of the four
defined transient errors — such a failure leaves `current_value`
present-with-null rather than absent, and does not abort the export
(conjunct 2: the export still returns a snapshot, with
`current_value = None` present whenever the type is truthy). -/
theorem browse_current_value_char (nid : String) (ncls : NodeClassE)
    (nname : String) (tr : Except Unit VariantType)
    (vr : Except ReadErr Value) (ch : PForest) (ex : Bool)
    (p : Option (List String)) :
    (∀ s, browse_nodes (.mk nid ncls nname tr vr ch) ex p = .ok s →
      s.cv =
        (match readVarType ncls tr with
         | some t =>
           if vtVal t ≠ 0 then
             if ex = true ∧
                (truthy (readVal (.mk nid ncls nname tr vr ch)) &&
                 check_if_object_is_from_module
                   (readVal (.mk nid ncls nname tr vr ch)) "asyncua") = true
             then Option.none
             else some (readVal (.mk nid ncls nname tr vr ch))
           else Option.none
         | Option.none => Option.none)) ∧
    (∀ e f0, ncls = NodeClassE.Variable → vr = .error e →
      isCaught e = true →
      browseChildren ch ex (pathSeed p nname) = .ok f0 →
      ∃ s, browse_nodes (.mk nid ncls nname tr vr ch) ex p = .ok s ∧
        s.cv = (match readVarType ncls tr with
                | some t => if vtVal t ≠ 0 then some Value.none
                            else Option.none
                | Option.none => Option.none)) := by
  constructor
  · intro s hok
    obtain ⟨f0, cvv, hbc, hcv, hs⟩ :=
      browse_nodes_ok_elim nid ncls nname tr vr ch ex p s hok
    subst hs
    rw [assembleSnap_cv]
    by_cases hv : ncls = NodeClassE.Variable
    · subst hv
      rcases vr with e | v
      · by_cases hce : isCaught e = true
        · have hcvv : cvv = Value.none := by
            rw [readCurrentValue] at hcv
            simp only [if_pos rfl, hce, if_true] at hcv
            simpa using hcv.symm
          subst hcvv
          rfl
        · exfalso
          rw [readCurrentValue] at hcv
          simp [hce] at hcv
      · have hcvv : cvv = v := by
          rw [readCurrentValue] at hcv
          simpa using hcv.symm
        subst hcvv
        rfl
    · have hvt : readVarType ncls tr = Option.none := by
        simp [readVarType, hv]
      rw [hvt]
  · intro e f0 hv he hce hbc
    subst hv
    subst he
    have hcv : readCurrentValue NodeClassE.Variable (.error e)
        = .ok Value.none := by
      simp [readCurrentValue, hce]
    refine ⟨_, browse_nodes_ok_intro nid _ nname tr _ ch ex p f0
      Value.none hbc hcv, ?_⟩
    rw [assembleSnap_cv]
    rcases tr with u | t
    case error => rfl
    case ok =>
      by_cases ht : vtVal t = 0 <;>
        simp [readVarType, ht, truthy_none]

/-- Witness for the amended C2 at concrete inputs: a readable `Int32`
Variable exports with its value present, and one whose read fails
transiently still exports — with `current_value` present holding
null. -/
theorem browse_current_value_char_witness :
    ((Snapshot.mk "i" "n" (.str "Variable") (some (.str "Int32")) ["n"]
        (some (.int 7)) false .absent).cv = some (.int 7)) ∧
    (∃ s, browse_nodes (.mk "i2" .Variable "n2" (.ok .Int32)
        (.error .badOutOfService) .nil) true Option.none = .ok s ∧
      s.cv = some Value.none) :=
  ⟨(browse_current_value_char "i" .Variable "n" (.ok .Int32) (.ok (.int 7))
      .nil true Option.none).1
      (.mk "i" "n" (.str "Variable") (some (.str "Int32")) ["n"]
        (some (.int 7)) false .absent) rfl,
   (browse_current_value_char "i2" .Variable "n2" (.ok .Int32)
      (.error .badOutOfService) .nil true Option.none).2
      .badOutOfService .nil rfl rfl rfl rfl⟩

/-- Whether the `children` key is present in a snapshot dictionary. -/
def hasChildrenKey : Snapshot → Bool
  | .mk _ _ _ _ _ _ _ .absent => false
  | .mk _ _ _ _ _ _ _ (.present _) => true

/-- Whether a node has at least one child of class Object or Variable
(the classes `browse_nodes` recurses into). -/
def anyAllowed : PForest → Bool
  | .nil => false
  | .cons c rest =>
    (c.cls = NodeClassE.Object || c.cls = NodeClassE.Variable) ||
      anyAllowed rest

/-- C4 counterexample: exporting a Variable-classed node that has a
Variable-classed child attaches a `children` key to the Variable's
snapshot — export does attach child snapshots under a Variable node. -/
theorem browse_variable_children_cex :
    (browse_nodes (.mk "p" .Variable "pn" (.ok .Int32) (.ok (.int 1))
        (.cons (.mk "c" .Variable "cn" (.ok .Int32) (.ok (.int 2)) .nil)
          .nil)) true Option.none).map
      (fun s => (s.cls, hasChildrenKey s))
      = .ok (ClsVal.str "Variable", true) := rfl

/-- A successful children walk returns an empty forest iff the node has
no Object/Variable-classed child. -/
theorem browseChildren_nil_iff : ∀ (f : PForest) (ex : Bool)
    (p : List String) (f0 : SForest),
    browseChildren f ex p = .ok f0 →
    (f0 = SForest.nil ↔ anyAllowed f = false)
  | .nil, ex, p, f0 => by
    intro h
    have : SForest.nil = f0 := by simpa [browseChildren] using h
    subst this
    simp [anyAllowed]
  | .cons c rest, ex, p, f0 => by
    intro h
    rw [browseChildren.eq_def] at h
    dsimp only at h
    by_cases hc : c.cls = NodeClassE.Object ∨ c.cls = NodeClassE.Variable
    · rw [if_pos hc] at h
      rcases hb : browse_nodes c ex (some p) with e | s <;> rw [hb] at h
      · exact absurd h (by simp)
      · dsimp only at h
        rcases hb2 : browseChildren rest ex p with e | ss <;> rw [hb2] at h
        · exact absurd h (by simp)
        · dsimp only at h
          have hf : SForest.cons s ss = f0 := by simpa using h
          subst hf
          constructor
          · intro hcon
            cases hcon
          · intro hfa
            exfalso
            rcases hc with h1 | h1 <;> simp [anyAllowed, h1] at hfa
    · rw [if_neg hc] at h
      rcases not_or.mp hc with ⟨h1, h2⟩
      rw [browseChildren_nil_iff rest ex p f0 h]
      simp [anyAllowed, h1, h2]

/-- C4 amended: in export mode the `children` key is attached to a
snapshot (whatever the node's own class — Variables included) iff the
node has at least one Object/Variable-classed child; so a Variable with
such children does get a `children` key, and a Variable without them
does not. -/
theorem browse_children_key_iff (nid : String) (ncls : NodeClassE)
    (nname : String) (tr : Except Unit VariantType)
    (vr : Except ReadErr Value) (ch : PForest)
    (p : Option (List String)) (s : Snapshot)
    (hok : browse_nodes (.mk nid ncls nname tr vr ch) true p = .ok s) :
    hasChildrenKey s = anyAllowed ch := by
  obtain ⟨f0, cvv, hbc, hcv, hs⟩ :=
    browse_nodes_ok_elim nid ncls nname tr vr ch true p s hok
  subst hs
  have hiff := browseChildren_nil_iff ch true (pathSeed p nname) f0 hbc
  rcases f0 with _ | ⟨s1, rest1⟩
  · have : anyAllowed ch = false := hiff.mp rfl
    rw [this]
    simp [assembleSnap, hasChildrenKey]
  · have hne : anyAllowed ch ≠ false := fun hf => by
      have := hiff.mpr hf
      cases this
    have : anyAllowed ch = true := by
      rcases Bool.eq_false_or_eq_true (anyAllowed ch) with h | h
      · exact h
      · exact absurd h hne
    rw [this]
    simp [assembleSnap, hasChildrenKey]

/-- Witness for the amended C4 at a concrete input: a Variable with one
Variable child exports with a `children` key present. -/
theorem browse_children_key_iff_witness :
    hasChildrenKey
      (.mk "p" "pn" (.str "Variable") (some (.str "Int32")) ["pn"]
        (some (.int 1)) false
        (.present (.cons (.mk "c" "cn" (.str "Variable")
          (some (.str "Int32")) ["pn", "cn"] (some (.int 2)) false .absent)
          .nil)))
      = anyAllowed (.cons (.mk "c" .Variable "cn" (.ok .Int32)
          (.ok (.int 2)) .nil) .nil) :=
  browse_children_key_iff "p" .Variable "pn" (.ok .Int32) (.ok (.int 1))
    (.cons (.mk "c" .Variable "cn" (.ok .Int32) (.ok (.int 2)) .nil) .nil)
    Option.none
    (.mk "p" "pn" (.str "Variable") (some (.str "Int32")) ["pn"]
      (some (.int 1)) false
      (.present (.cons (.mk "c" "cn" (.str "Variable")
        (some (.str "Int32")) ["pn", "cn"] (some (.int 2)) false .absent)
        .nil))) rfl

/-- C1 counterexample: `browse_nodes` never checks the class of the
node it is invoked on — exporting a Method-classed root yields a
top-level snapshot entry whose class is `"Method"`, outside
{Object, Variable}. -/
theorem browse_root_class_cex :
    (browse_nodes (.mk "m" .Method "mn" (.error ()) (.ok Value.none) .nil)
        true Option.none).map Snapshot.cls = .ok (.str "Method") ∧
    ¬ clsAllowed (.str "Method") :=
  ⟨rfl, by decide⟩

/-- The nodes of an assembled snapshot tree: the assembled node itself
followed by the nodes of the walked children (in export mode an empty
forest merely loses its `children` key, not any node). -/
theorem treeNodes_assembleSnap (nid nname : String) (ncls : NodeClassE)
    (vt : Option VariantType) (cvv : Value) (path : List String)
    (ch : SForest) (ex : Bool) :
    treeNodes (assembleSnap nid nname ncls vt cvv path ch ex)
      = assembleSnap nid nname ncls vt cvv path ch ex ::
          forestNodes ch := by
  cases ex <;> cases ch <;> simp [assembleSnap, treeNodes, forestNodes]

mutual
/-- Helper for C1, by mutual induction: under an Object/Variable root,
every snapshot in a successful export has an Object/Variable class
encoding and an id reachable from the root through Object/Variable
children only. -/
theorem browse_class_aux : ∀ (n : PNode) (ex : Bool)
    (p : Option (List String)) (s : Snapshot),
    browse_nodes n ex p = .ok s →
    (n.cls = NodeClassE.Object ∨ n.cls = NodeClassE.Variable) →
    ∀ t ∈ treeNodes s, clsAllowed t.cls ∧ t.id ∈ allowedIds n
  | .mk nid ncls nname tr vr ch, ex, p, s => by
    intro hok hcls t ht
    simp only [PNode.cls] at hcls
    obtain ⟨f0, cvv, hbc, hcv, hs⟩ :=
      browse_nodes_ok_elim nid ncls nname tr vr ch ex p s hok
    subst hs
    have hval : ncVal ncls = 1 ∨ ncVal ncls = 2 := by
      rcases hcls with h | h <;> rw [h] <;> simp [ncVal]
    rw [treeNodes_assembleSnap] at ht
    rcases List.mem_cons.mp ht with hroot | hchild
    · subst hroot
      constructor
      · rw [assembleSnap_cls]
        rcases hcls with h | h <;> subst h <;> cases ex <;>
          simp [clsAllowed, ncVal, ncName]
      · rw [assembleSnap_id]
        rw [allowedIds.eq_def]
        exact List.mem_cons_self _ _
    · have := browseChildren_class_aux ch ex (pathSeed p nname) f0 hbc t
        hchild
      refine ⟨this.1, ?_⟩
      rw [allowedIds.eq_def]
      exact List.mem_cons_of_mem _ this.2
/-- Companion of `browse_class_aux` for the children loop. -/
theorem browseChildren_class_aux : ∀ (f : PForest) (ex : Bool)
    (p : List String) (f0 : SForest),
    browseChildren f ex p = .ok f0 →
    ∀ t ∈ forestNodes f0, clsAllowed t.cls ∧ t.id ∈ allowedIdsForest f
  | .nil, ex, p, f0 => by
    intro h t ht
    have : SForest.nil = f0 := by simpa [browseChildren] using h
    subst this
    simp [forestNodes] at ht
  | .cons c rest, ex, p, f0 => by
    intro h t ht
    rw [browseChildren.eq_def] at h
    dsimp only at h
    by_cases hc : c.cls = NodeClassE.Object ∨ c.cls = NodeClassE.Variable
    · rw [if_pos hc] at h
      rcases hb : browse_nodes c ex (some p) with e | s <;> rw [hb] at h
      · exact absurd h (by simp)
      · dsimp only at h
        rcases hb2 : browseChildren rest ex p with e | ss <;> rw [hb2] at h
        · exact absurd h (by simp)
        · dsimp only at h
          have hf : SForest.cons s ss = f0 := by simpa using h
          subst hf
          simp only [forestNodes, List.mem_append] at ht
          rcases ht with h1 | h1
          · have := browse_class_aux c ex (some p) s hb hc t h1
            refine ⟨this.1, ?_⟩
            rw [allowedIdsForest.eq_def]
            dsimp only
            rw [if_pos hc]
            exact List.mem_append_left _ this.2
          · have := browseChildren_class_aux rest ex p ss hb2 t h1
            refine ⟨this.1, ?_⟩
            rw [allowedIdsForest.eq_def]
            dsimp only
            rw [if_pos hc]
            exact List.mem_append_right _ this.2
    · rw [if_neg hc] at h
      have := browseChildren_class_aux rest ex p f0 h t ht
      refine ⟨this.1, ?_⟩
      rw [allowedIdsForest.eq_def]
      dsimp only
      rw [if_neg hc]
      exact List.mem_append_right _ this.2
end

/-- C1 amended: provided the export is invoked on a root whose class is
Object or Variable, every node of the returned snapshot tree has class
Object or Variable (in either encoding), and every node's id is
reachable from the root through Object/Variable-classed children only —
children of any other class are dropped and never recursed through.
The root's own class is NOT checked by the code: an other-classed root
is exported as-is (see the counterexample), which is the one correction
to the claim. -/
theorem browse_class_filter (n : PNode) (ex : Bool)
    (p : Option (List String)) (s : Snapshot)
    (hroot : n.cls = NodeClassE.Object ∨ n.cls = NodeClassE.Variable)
    (hok : browse_nodes n ex p = .ok s) :
    ∀ t ∈ treeNodes s, clsAllowed t.cls ∧ t.id ∈ allowedIds n :=
  browse_class_aux n ex p s hok hroot

/-- Witness for the amended C1 at a concrete input: an Object root with
a Method child (holding a Variable grandchild) and a Variable child;
the two exported nodes (root and the Variable child) have allowed
classes and allowed-reachable ids. -/
theorem browse_class_filter_witness :
    (clsAllowed (ClsVal.str "Object") ∧
      "r" ∈ allowedIds (.mk "r" .Object "rn" (.error ()) (.ok Value.none)
        (.cons (.mk "m" .Method "mn" (.error ()) (.ok Value.none)
            (.cons (.mk "g" .Variable "gn" (.ok .Int32) (.ok (.int 1)) .nil)
              .nil))
          (.cons (.mk "v" .Variable "vn" (.ok .Int32) (.ok (.int 2)) .nil)
            .nil)))) ∧
    (clsAllowed (ClsVal.str "Variable") ∧
      "v" ∈ allowedIds (.mk "r" .Object "rn" (.error ()) (.ok Value.none)
        (.cons (.mk "m" .Method "mn" (.error ()) (.ok Value.none)
            (.cons (.mk "g" .Variable "gn" (.ok .Int32) (.ok (.int 1)) .nil)
              .nil))
          (.cons (.mk "v" .Variable "vn" (.ok .Int32) (.ok (.int 2)) .nil)
            .nil)))) :=
  ⟨browse_class_filter
      (.mk "r" .Object "rn" (.error ()) (.ok Value.none)
        (.cons (.mk "m" .Method "mn" (.error ()) (.ok Value.none)
            (.cons (.mk "g" .Variable "gn" (.ok .Int32) (.ok (.int 1)) .nil)
              .nil))
          (.cons (.mk "v" .Variable "vn" (.ok .Int32) (.ok (.int 2)) .nil)
            .nil)))
      true Option.none
      (.mk "r" "rn" (.str "Object") Option.none ["rn"] Option.none false
        (.present (.cons (.mk "v" "vn" (.str "Variable")
          (some (.str "Int32")) ["rn", "vn"] (some (.int 2)) false .absent)
          .nil)))
      (Or.inl rfl) rfl
      (.mk "r" "rn" (.str "Object") Option.none ["rn"] Option.none false
        (.present (.cons (.mk "v" "vn" (.str "Variable")
          (some (.str "Int32")) ["rn", "vn"] (some (.int 2)) false .absent)
          .nil)))
      (List.mem_cons_self _ _),
   browse_class_filter
      (.mk "r" .Object "rn" (.error ()) (.ok Value.none)
        (.cons (.mk "m" .Method "mn" (.error ()) (.ok Value.none)
            (.cons (.mk "g" .Variable "gn" (.ok .Int32) (.ok (.int 1)) .nil)
              .nil))
          (.cons (.mk "v" .Variable "vn" (.ok .Int32) (.ok (.int 2)) .nil)
            .nil)))
      true Option.none
      (.mk "r" "rn" (.str "Object") Option.none ["rn"] Option.none false
        (.present (.cons (.mk "v" "vn" (.str "Variable")
          (some (.str "Int32")) ["rn", "vn"] (some (.int 2)) false .absent)
          .nil)))
      (Or.inl rfl) rfl
      (.mk "v" "vn" (.str "Variable") (some (.str "Int32")) ["rn", "vn"]
        (some (.int 2)) false .absent)
      (List.mem_cons_of_mem _ (List.mem_cons_self _ _))⟩

mutual
/-- Helper for C8, by mutual induction: every `path` recorded in the
export of `n` invoked with accumulated path `p` is `p`, then `n`'s own
browse name, then names of strict descendants of `n` only. -/
theorem browse_paths_aux : ∀ (n : PNode) (ex : Bool) (p : List String)
    (s : Snapshot),
    browse_nodes n ex (some p) = .ok s →
    ∀ q ∈ snapPaths s, ∃ suf, q = p ++ n.nm :: suf ∧
      ∀ x ∈ suf, x ∈ namesBelow n
  | .mk nid ncls nname tr vr ch, ex, p, s => by
    intro hok q hq
    obtain ⟨f0, cvv, hbc, hcv, hs⟩ :=
      browse_nodes_ok_elim nid ncls nname tr vr ch ex (some p) s hok
    subst hs
    rw [snapPaths, treeNodes_assembleSnap, List.map_cons] at hq
    rcases List.mem_cons.mp hq with hroot | hchild
    · refine ⟨[], ?_, by simp⟩
      rw [hroot, assembleSnap_path]
      simp [pathSeed, PNode.nm]
    · obtain ⟨suf, hsuf, hels⟩ :=
        browseChildren_paths_aux ch ex (pathSeed (some p) nname) f0 hbc q
          hchild
      refine ⟨suf, ?_, ?_⟩
      · rw [hsuf]
        simp [pathSeed, PNode.nm]
      · intro x hx
        have := hels x hx
        simpa [namesBelow] using this
/-- Companion of `browse_paths_aux` for the children loop: every path
recorded under the walked children extends `p` with names drawn from
the forest's nodes. -/
theorem browseChildren_paths_aux : ∀ (f : PForest) (ex : Bool)
    (p : List String) (f0 : SForest),
    browseChildren f ex p = .ok f0 →
    ∀ q ∈ (forestNodes f0).map Snapshot.path,
      ∃ suf, q = p ++ suf ∧ ∀ x ∈ suf, x ∈ namesForest f
  | .nil, ex, p, f0 => by
    intro h q hq
    have : SForest.nil = f0 := by simpa [browseChildren] using h
    subst this
    simp [forestNodes] at hq
  | .cons c rest, ex, p, f0 => by
    intro h q hq
    rw [browseChildren.eq_def] at h
    dsimp only at h
    by_cases hc : c.cls = NodeClassE.Object ∨ c.cls = NodeClassE.Variable
    · rw [if_pos hc] at h
      rcases hb : browse_nodes c ex (some p) with e | s <;> rw [hb] at h
      · exact absurd h (by simp)
      · dsimp only at h
        rcases hb2 : browseChildren rest ex p with e | ss <;> rw [hb2] at h
        · exact absurd h (by simp)
        · dsimp only at h
          have hf : SForest.cons s ss = f0 := by simpa using h
          subst hf
          rw [forestNodes.eq_def] at hq
          dsimp only at hq
          rw [List.map_append] at hq
          rcases List.mem_append.mp hq with h1 | h1
          · obtain ⟨suf, hsuf, hels⟩ :=
              browse_paths_aux c ex p s hb q (by rw [snapPaths]; exact h1)
            refine ⟨c.nm :: suf, hsuf, ?_⟩
            intro x hx
            rw [namesForest.eq_def]
            dsimp only
            rcases List.mem_cons.mp hx with hx0 | hx0
            · exact hx0 ▸ List.mem_cons_self _ _
            · exact List.mem_cons_of_mem _
                (List.mem_append_left _ (hels x hx0))
          · obtain ⟨suf, hsuf, hels⟩ :=
              browseChildren_paths_aux rest ex p ss hb2 q h1
            refine ⟨suf, hsuf, ?_⟩
            intro x hx
            rw [namesForest.eq_def]
            dsimp only
            exact List.mem_cons_of_mem _
              (List.mem_append_right _ (hels x hx))
    · rw [if_neg hc] at h
      obtain ⟨suf, hsuf, hels⟩ :=
        browseChildren_paths_aux rest ex p f0 h q hq
      refine ⟨suf, hsuf, ?_⟩
      intro x hx
      rw [namesForest.eq_def]
      dsimp only
      exact List.mem_cons_of_mem _
        (List.mem_append_right _ (hels x hx))
end

/-- Inversion of the children loop on an empty child list. -/
theorem browseChildren_nil_elim (ex : Bool) (p : List String)
    (f0 : SForest) (h : browseChildren .nil ex p = .ok f0) :
    f0 = .nil := by
  have : SForest.nil = f0 := by simpa [browseChildren] using h
  exact this.symm

/-- Inversion of the children loop on an Object/Variable-classed head:
the head is exported, the tail is walked, and the results are consed. -/
theorem browseChildren_cons_allowed (c : PNode) (rest : PForest)
    (ex : Bool) (p : List String) (f0 : SForest)
    (hc : c.cls = NodeClassE.Object ∨ c.cls = NodeClassE.Variable)
    (h : browseChildren (.cons c rest) ex p = .ok f0) :
    ∃ s ss, browse_nodes c ex (some p) = .ok s ∧
      browseChildren rest ex p = .ok ss ∧ f0 = .cons s ss := by
  rw [browseChildren.eq_def] at h
  dsimp only at h
  rw [if_pos hc] at h
  rcases hb : browse_nodes c ex (some p) with e | s <;> rw [hb] at h
  · exact absurd h (by simp)
  · dsimp only at h
    rcases hb2 : browseChildren rest ex p with e | ss <;> rw [hb2] at h
    · exact absurd h (by simp)
    · dsimp only at h
      exact ⟨s, ss, rfl, rfl, by simpa using h.symm⟩

/-- C8: each recursive branch of the export receives its own copy of
the accumulated path (`deepcopy(path)` in the code, value passing
here), so sibling subtrees never observe each other's appended names:
for a root with two sibling Object children `A` and `B` (with distinct
names, `B`'s name occurring nowhere in `A`'s subtree and vice versa),
no path recorded in `A`'s exported subtree contains `B`'s name, and
vice versa. -/
theorem browse_sibling_path_isolation
    (rid : String) (rcls : NodeClassE) (rnm : String)
    (rtr : Except Unit VariantType) (rvr : Except ReadErr Value)
    (A B : PNode) (ex : Bool) (s : Snapshot)
    (hA : A.cls = NodeClassE.Object) (hB : B.cls = NodeClassE.Object)
    (hok : browse_nodes (.mk rid rcls rnm rtr rvr
      (.cons A (.cons B .nil))) ex Option.none = .ok s)
    (hfreshB : B.nm ∉ rnm :: A.nm :: namesBelow A)
    (hfreshA : A.nm ∉ rnm :: B.nm :: namesBelow B) :
    ∃ sA sB,
      browse_nodes A ex (some [rnm]) = .ok sA ∧
      browse_nodes B ex (some [rnm]) = .ok sB ∧
      s.children = .present (.cons sA (.cons sB .nil)) ∧
      (∀ q ∈ snapPaths sA, B.nm ∉ q) ∧
      (∀ q ∈ snapPaths sB, A.nm ∉ q) := by
  simp only [List.mem_cons, not_or] at hfreshB hfreshA
  obtain ⟨hBr, hBa, hBd⟩ := hfreshB
  obtain ⟨hAr, hAb, hAd⟩ := hfreshA
  obtain ⟨f0, cvv, hbc, hcv, hs⟩ :=
    browse_nodes_ok_elim rid rcls rnm rtr rvr _ ex Option.none s hok
  obtain ⟨sA, ssA, hbA, hbcB, hf0⟩ :=
    browseChildren_cons_allowed A (.cons B .nil) ex
      (pathSeed Option.none rnm) f0 (Or.inl hA) hbc
  obtain ⟨sB, ssB, hbB, hbnil, hssA⟩ :=
    browseChildren_cons_allowed B .nil ex (pathSeed Option.none rnm) ssA
      (Or.inl hB) hbcB
  have hssB := browseChildren_nil_elim ex (pathSeed Option.none rnm) ssB
    hbnil
  subst hssB
  subst hssA
  subst hf0
  subst hs
  refine ⟨sA, sB, hbA, hbB, ?_, ?_, ?_⟩
  · rw [assembleSnap_children]
    cases ex <;> rfl
  · intro q hq hmem
    obtain ⟨suf, hsuf, hels⟩ := browse_paths_aux A ex [rnm] sA hbA q hq
    rw [hsuf] at hmem
    rcases List.mem_append.mp hmem with h1 | h1
    · exact hBr (by simpa using h1)
    · rcases List.mem_cons.mp h1 with h2 | h2
      · exact hBa h2
      · exact hBd (hels _ h2)
  · intro q hq hmem
    obtain ⟨suf, hsuf, hels⟩ := browse_paths_aux B ex [rnm] sB hbB q hq
    rw [hsuf] at hmem
    rcases List.mem_append.mp hmem with h1 | h1
    · exact hAr (by simpa using h1)
    · rcases List.mem_cons.mp h1 with h2 | h2
      · exact hAb h2
      · exact hAd (hels _ h2)

/-- Witness for C8 at a concrete input: root `R` with Object children
`A` (child `A1`) and `B` (child `B1`). -/
theorem browse_sibling_path_isolation_witness :
    ∃ sA sB,
      browse_nodes (.mk "a" .Object "A" (.error ()) (.ok Value.none)
        (.cons (.mk "a1" .Variable "A1" (.ok .Int32) (.ok (.int 1)) .nil)
          .nil)) true (some ["R"]) = .ok sA ∧
      browse_nodes (.mk "b" .Object "B" (.error ()) (.ok Value.none)
        (.cons (.mk "b1" .Variable "B1" (.ok .Int32) (.ok (.int 2)) .nil)
          .nil)) true (some ["R"]) = .ok sB ∧
      (Snapshot.mk "r" "R" (.str "Object") Option.none ["R"] Option.none
        false (.present (.cons
          (.mk "a" "A" (.str "Object") Option.none ["R", "A"] Option.none
            false (.present (.cons
              (.mk "a1" "A1" (.str "Variable") (some (.str "Int32"))
                ["R", "A", "A1"] (some (.int 1)) false .absent) .nil)))
          (.cons
            (.mk "b" "B" (.str "Object") Option.none ["R", "B"] Option.none
              false (.present (.cons
                (.mk "b1" "B1" (.str "Variable") (some (.str "Int32"))
                  ["R", "B", "B1"] (some (.int 2)) false .absent) .nil)))
            .nil)))).children = .present (.cons sA (.cons sB .nil)) ∧
      (∀ q ∈ snapPaths sA, "B" ∉ q) ∧
      (∀ q ∈ snapPaths sB, "A" ∉ q) :=
  browse_sibling_path_isolation "r" .Object "R" (.error ())
    (.ok Value.none)
    (.mk "a" .Object "A" (.error ()) (.ok Value.none)
      (.cons (.mk "a1" .Variable "A1" (.ok .Int32) (.ok (.int 1)) .nil)
        .nil))
    (.mk "b" .Object "B" (.error ()) (.ok Value.none)
      (.cons (.mk "b1" .Variable "B1" (.ok .Int32) (.ok (.int 2)) .nil)
        .nil))
    true
    (.mk "r" "R" (.str "Object") Option.none ["R"] Option.none false
      (.present (.cons
        (.mk "a" "A" (.str "Object") Option.none ["R", "A"] Option.none
          false (.present (.cons
            (.mk "a1" "A1" (.str "Variable") (some (.str "Int32"))
              ["R", "A", "A1"] (some (.int 1)) false .absent) .nil)))
        (.cons
          (.mk "b" "B" (.str "Object") Option.none ["R", "B"] Option.none
            false (.present (.cons
              (.mk "b1" "B1" (.str "Variable") (some (.str "Int32"))
                ["R", "B", "B1"] (some (.int 2)) false .absent) .nil)))
          .nil))))
    rfl rfl rfl (by decide) (by decide)
